import Mathlib

set_option maxRecDepth 100000

/-!
Shallow embedding of the BeanBag CouchDB client (src/lib/BeanBag.js):
a JavaScript value model, the URL placeholder engine, the query-string
encoder, the request retry pipeline, the streaming row parser, the
design-document manager and the MD5 fingerprint of design documents.
-/

namespace BeanBagModel

/-- JavaScript primitive values.  They are the observable view of the
request options inside placeholder callables. -/
inductive JSPrim where
  | undef
  | null
  | boolean (b : Bool)
  | num (n : Int)
  | str (s : String)
deriving DecidableEq

mutual
/-- JavaScript values as manipulated by BeanBag: primitives, callables
(carrying their source text and behaviour), arrays and objects.  A
callable observes the primitive-valued fields of the request options it
is invoked with. -/
inductive JSValue where
  | undef
  | null
  | boolean (b : Bool)
  | num (n : Int)
  | str (s : String)
  | fn (source : String) (impl : List (String × JSPrim) → String → JSPrim)
  | arr (elems : JSArray)
  | obj (fields : JSFields)

/-- Array spine, kept as a separate inductive so that recursion over
value trees is structural and kernel-reducible. -/
inductive JSArray where
  | nil
  | cons (head : JSValue) (tail : JSArray)

/-- Object field spine, in insertion order. -/
inductive JSFields where
  | nil
  | cons (key : String) (value : JSValue) (tail : JSFields)
end

/-- Embedding of primitives into full values. -/
def JSPrim.toValue : JSPrim → JSValue
  | .undef => .undef
  | .null => .null
  | .boolean b => .boolean b
  | .num n => .num n
  | .str s => .str s

/-- Lookup of a property in an association-list view of a JavaScript
object; returns none when the key is absent. -/
def lookupJS (props : List (String × JSValue)) (key : String) : Option JSValue :=
  match props with
  | [] => none
  | (k, v) :: rest => if k = key then some v else lookupJS rest key

/-- Whether a value is the JavaScript undefined (the `typeof x ===
\x27undefined\x27` test used throughout the source). -/
def JSValue.isUndef : JSValue → Bool
  | .undef => true
  | _ => false

/-- Erase the request options to their primitive-valued fields; this is
what a placeholder callable observes in the model. -/
def eraseToPrims (opts : List (String × JSValue)) : List (String × JSPrim) :=
  opts.map fun (k, v) =>
    (k, match v with
        | .undef => .undef
        | .null => .null
        | .boolean b => .boolean b
        | .num n => .num n
        | .str s => .str s
        | _ => .undef)

mutual
/-- JavaScript ToString coercion, `String(value)`: functions print as
their source text, arrays join their members with commas (undefined and
null print as the empty string inside an array), objects print as
[object Object]. -/
def jsToString : JSValue → String
  | .undef => "undefined"
  | .null => "null"
  | .boolean b => if b then "true" else "false"
  | .num n => toString n
  | .str s => s
  | .fn source _ => source
  | .arr elems => String.intercalate ("," ) (jsToStringArr elems)
  | .obj _ => "[object Object]"

/-- ToString of each array member, as the array joining coercion does it. -/
def jsToStringArr : JSArray → List String
  | .nil => []
  | .cons h t =>
      (match h with
       | .undef => ""
       | .null => ""
       | v => jsToString v) :: jsToStringArr t
end

end BeanBagModel

namespace BeanBagModel

/-- Hex digit in lowercase, for JSON escapes and the MD5 digest. -/
def hexDigitLower (n : Nat) : Char :=
  if n < 10 then Char.ofNat (48 + n) else Char.ofNat (87 + n)

/-- Hex digit in uppercase, as encodeURIComponent emits. -/
def hexDigitUpper (n : Nat) : Char :=
  if n < 10 then Char.ofNat (48 + n) else Char.ofNat (55 + n)

/-- JSON escaping of one character, as JSON.stringify performs it. -/
def escapeJsonChar (c : Char) : List Char :=
  if c = '"' then ['\\', '"']
  else if c = '\\' then ['\\', '\\']
  else if c = '\x08' then ['\\', 'b']
  else if c = '\t' then ['\\', 't']
  else if c = '\n' then ['\\', 'n']
  else if c = '\x0c' then ['\\', 'f']
  else if c = '\r' then ['\\', 'r']
  else if c.toNat < 32 then
    ['\\', 'u', '0', '0', hexDigitLower (c.toNat / 16), hexDigitLower (c.toNat % 16)]
  else [c]

/-- JSON escaping of a character sequence. -/
def escapeJsonChars (cs : List Char) : List Char := (cs.map escapeJsonChar).flatten

/-- JSON string literal for a string. -/
def jsonQuote (s : String) : String :=
  String.mk ('"' :: (escapeJsonChars s.toList ++ ['"']))

mutual
/-- JSON.stringify on the value model: undefined and callables are not
representable (none at top level, omitted inside objects, null inside
arrays); object fields are emitted in insertion order. -/
def jsonStringify : JSValue → Option String
  | .undef => none
  | .null => some ("null")
  | .boolean b => some (if b then "true" else "false")
  | .num n => some (toString n)
  | .str s => some (jsonQuote s)
  | .fn _ _ => none
  | .arr elems => some ("[" ++ String.intercalate ("," ) (jsonStringifyArr elems) ++ "]")
  | .obj fields => some ("\x7b" ++ String.intercalate ("," ) (jsonStringifyFields fields) ++ "\x7d")

/-- Rendered members of an array; unrepresentable members become null. -/
def jsonStringifyArr : JSArray → List String
  | .nil => []
  | .cons h t => ((jsonStringify h).getD ("null")) :: jsonStringifyArr t

/-- Rendered members of an object; unrepresentable members are omitted. -/
def jsonStringifyFields : JSFields → List String
  | .nil => []
  | .cons k v t =>
      match jsonStringify v with
      | none => jsonStringifyFields t
      | some sv => (jsonQuote k ++ ":" ++ sv) :: jsonStringifyFields t
end

mutual
/-- Replacer of objToCouchJson (src/lib/BeanBag.js lines 118-125):
callable values become their source text, everything else is kept. -/
def couchReplace : JSValue → JSValue
  | .fn source _ => .str source
  | .arr elems => .arr (couchReplaceArr elems)
  | .obj fields => .obj (couchReplaceFields fields)
  | v => v

/-- couchReplace on each array member. -/
def couchReplaceArr : JSArray → JSArray
  | .nil => .nil
  | .cons h t => .cons (couchReplace h) (couchReplaceArr t)

/-- couchReplace on each object field. -/
def couchReplaceFields : JSFields → JSFields
  | .nil => .nil
  | .cons k v t => .cons k (couchReplace v) (couchReplaceFields t)
end

/-- objToCouchJson: the same as JSON.stringify except functions are
converted to their source text (src/lib/BeanBag.js lines 118-125). -/
def objToCouchJson (v : JSValue) : String :=
  (jsonStringify (couchReplace v)).getD ("undefined")

/-- UTF-8 encoding of one character code point. -/
def utf8EncodeChar (c : Char) : List Nat :=
  let n := c.toNat
  if n < 128 then [n]
  else if n < 2048 then [192 + n / 64, 128 + n % 64]
  else if n < 65536 then [224 + n / 4096, 128 + n / 64 % 64, 128 + n % 64]
  else [240 + n / 262144, 128 + n / 4096 % 64, 128 + n / 64 % 64, 128 + n % 64]

/-- UTF-8 encoding of a string as a byte sequence. -/
def utf8Encode (s : String) : List Nat := (s.toList.map utf8EncodeChar).flatten

/-- Bitwise AND of two 32-bit naturals, computed arithmetically so that
the kernel can evaluate it. -/
def and32 (x y : Nat) : Nat :=
  (List.range 32).foldl
    (fun acc i => acc + (if x / 2 ^ i % 2 = 1 ∧ y / 2 ^ i % 2 = 1 then 2 ^ i else 0)) 0

/-- Bitwise complement within 32 bits (for x < 2^32). -/
def not32 (x : Nat) : Nat := 4294967295 - x

/-- Bitwise OR via AND. -/
def or32 (x y : Nat) : Nat := x + y - and32 x y

/-- Bitwise XOR via AND. -/
def xor32 (x y : Nat) : Nat := x + y - 2 * and32 x y

/-- Addition modulo 2^32. -/
def add32 (x y : Nat) : Nat := (x + y) % 4294967296

/-- Left rotation of a 32-bit word. -/
def rotl32 (x n : Nat) : Nat := x * 2 ^ n % 4294967296 + x % 4294967296 / 2 ^ (32 - n)

/-- Per-round shift amounts of MD5. -/
def md5Shifts : List Nat :=
  [7, 12, 17, 22, 7, 12, 17, 22, 7, 12, 17, 22, 7, 12, 17, 22,
   5, 9, 14, 20, 5, 9, 14, 20, 5, 9, 14, 20, 5, 9, 14, 20,
   4, 11, 16, 23, 4, 11, 16, 23, 4, 11, 16, 23, 4, 11, 16, 23,
   6, 10, 15, 21, 6, 10, 15, 21, 6, 10, 15, 21, 6, 10, 15, 21]

/-- Sine-derived round constants of MD5. -/
def md5K : List Nat :=
  [3614090360, 3905402710, 606105819, 3250441966, 4118548399, 1200080426, 2821735955, 4249261313,
   1770035416, 2336552879, 4294925233, 2304563134, 1804603682, 4254626195, 2792965006, 1236535329,
   4129170786, 3225465664, 643717713, 3921069994, 3593408605, 38016083, 3634488961, 3889429448,
   568446438, 3275163606, 4107603335, 1163531501, 2850285829, 4243563512, 1735328473, 2368359562,
   4294588738, 2272392833, 1839030562, 4259657740, 2763975236, 1272893353, 4139469664, 3200236656,
   681279174, 3936430074, 3572445317, 76029189, 3654602809, 3873151461, 530742520, 3299628645,
   4096336452, 1126891415, 2878612391, 4237533241, 1700485571, 2399980690, 4293915773, 2240044497,
   1873313359, 4264355552, 2734768916, 1309151649, 4149444226, 3174756917, 718787259, 3951481745]

/-- Splitting of the padded message into 64-byte blocks; fuel keeps the
recursion structural. -/
def md5BlocksAux : Nat → List Nat → List (List Nat)
  | 0, _ => []
  | _, [] => []
  | fuel + 1, l => l.take 64 :: md5BlocksAux fuel (l.drop 64)

/-- 64-byte blocks of a byte sequence. -/
def md5Blocks (l : List Nat) : List (List Nat) := md5BlocksAux l.length l

/-- MD5 padding: a 0x80 byte, zeros up to 56 mod 64, then the 64-bit
little-endian bit length. -/
def md5Pad (msg : List Nat) : List Nat :=
  let bitLen := msg.length * 8 % 18446744073709551616
  msg ++ 128 :: List.replicate ((119 - msg.length % 64) % 64) 0
      ++ (List.range 8).map (fun i => bitLen / 2 ^ (8 * i) % 256)

/-- The g-th little-endian 32-bit word of a 64-byte block. -/
def md5Word (block : List Nat) (g : Nat) : Nat :=
  block.getD (4 * g) 0 + 256 * block.getD (4 * g + 1) 0
    + 65536 * block.getD (4 * g + 2) 0 + 16777216 * block.getD (4 * g + 3) 0

/-- One MD5 round on the four-word state. -/
def md5Round (block : List Nat) (st : Nat × Nat × Nat × Nat) (i : Nat) : Nat × Nat × Nat × Nat :=
  let a := st.1
  let b := st.2.1
  let c := st.2.2.1
  let d := st.2.2.2
  let f :=
    if i < 16 then and32 b c + and32 (not32 b) d
    else if i < 32 then and32 d b + and32 (not32 d) c
    else if i < 48 then xor32 (xor32 b c) d
    else xor32 c (or32 b (not32 d))
  let g :=
    if i < 16 then i
    else if i < 32 then (5 * i + 1) % 16
    else if i < 48 then (3 * i + 5) % 16
    else 7 * i % 16
  let tmp := add32 (add32 (add32 a f) (md5K.getD i 0)) (md5Word block g)
  (d, add32 b (rotl32 tmp (md5Shifts.getD i 0)), b, c)

/-- The 64 MD5 rounds of one block, followed by the feed-forward addition. -/
def md5ProcessBlock (st : Nat × Nat × Nat × Nat) (block : List Nat) : Nat × Nat × Nat × Nat :=
  let r := (List.range 64).foldl (md5Round block) st
  (add32 st.1 r.1, add32 st.2.1 r.2.1, add32 st.2.2.1 r.2.2.1, add32 st.2.2.2 r.2.2.2)

/-- Little-endian bytes of a 32-bit word. -/
def wordBytes (w : Nat) : List Nat := [w % 256, w / 256 % 256, w / 65536 % 256, w / 16777216 % 256]

/-- MD5 digest (sixteen bytes) of a byte sequence. -/
def md5Digest (msg : List Nat) : List Nat :=
  let r := (md5Blocks (md5Pad msg)).foldl md5ProcessBlock (1732584193, 4023233417, 2562383102, 271733878)
  wordBytes r.1 ++ wordBytes r.2.1 ++ wordBytes r.2.2.1 ++ wordBytes r.2.2.2

/-- Lowercase hexadecimal rendering of a byte sequence. -/
def bytesToHexLower (bytes : List Nat) : String :=
  String.mk ((bytes.map (fun b => [hexDigitLower (b / 16), hexDigitLower (b % 16)])).flatten)

/-- MD5 hex digest of a string, modelling
crypto.createHash(md5).update(s, utf-8).digest(hex). -/
def md5HexOfString (s : String) : String := bytesToHexLower (md5Digest (utf8Encode s))

end BeanBagModel

namespace BeanBagModel

/-- Characters that encodeURIComponent leaves unescaped:
letters, digits, and - _ . ! ~ * ( ) and the apostrophe. -/
def isUnescapedURIChar (c : Char) : Bool :=
  let n := c.toNat
  (65 ≤ n && n ≤ 90) || (97 ≤ n && n ≤ 122) || (48 ≤ n && n ≤ 57) ||
    ['-', '_', '.', '!', '~', '*', '\x27', '(', ')'].contains c

/-- encodeURIComponent: unreserved characters pass through, everything
else is percent-encoded from its UTF-8 bytes in uppercase hex. -/
def encodeURIComponent (s : String) : String :=
  String.mk ((s.toList.map (fun c =>
    if isUnescapedURIChar c then [c]
    else ((utf8EncodeChar c).map (fun b => ['%', hexDigitUpper (b / 16), hexDigitUpper (b % 16)])).flatten)).flatten)

/-- Parameter pairs produced for the members of an array-valued query
key (src/lib/BeanBag.js lines 37-41): one pair per member. -/
def queryPairsForArr (key : String) : JSArray → List String
  | .nil => []
  | .cons item rest =>
      (encodeURIComponent key ++ "=" ++ encodeURIComponent ((jsonStringify item).getD ("undefined")))
        :: queryPairsForArr key rest

/-- Parameter pairs for one query key (the iteration body of
addQueryStringToUrl, src/lib/BeanBag.js lines 36-45): an array value
yields one pair per member, an undefined value is skipped, and any other
value yields one percent-encoded key=JSON pair. -/
def queryPairsForKey (key : String) : JSValue → List String
  | .arr items => queryPairsForArr key items
  | .undef => []
  | v => [encodeURIComponent key ++ "=" ++ encodeURIComponent ((jsonStringify v).getD ("undefined"))]

/-- Concatenated parameter pairs over the query object in insertion
order. -/
def queryParams : List (String × JSValue) → List String
  | [] => []
  | (k, v) :: rest => queryPairsForKey k v ++ queryParams rest

/-- Query argument of a request: absent, a literal string, or an object
given as key-value pairs in insertion order.  The source treats any
non-string defined value as an object (the Assume object comment). -/
inductive QueryArg where
  | absent
  | strQ (s : String)
  | objQ (fields : List (String × JSValue))

/-- addQueryStringToUrl (src/lib/BeanBag.js lines 28-50). -/
def addQueryStringToUrl (url : String) (query : QueryArg) : String :=
  match query with
  | .absent => url
  | .strQ s => url ++ (if url.toList.contains '?' then "&" else "?") ++ s
  | .objQ fields =>
      url ++ (if url.toList.contains '?' then "&" else "?")
          ++ String.intercalate ("&") (queryParams fields)

/-- Query encoding written from the words of claim C6: iterate the
mapping in insertion order, skip entries whose value is undefined, emit
percentEncode(key)=percentEncode(stringify(value)) for each scalar value
and one such pair per item for each array value. -/
def claimQueryPairs (fields : List (String × JSValue)) : List String :=
  fields.flatMap (fun kv =>
    match kv.2 with
    | .undef => []
    | .arr items =>
        (jsArrayToList items).map (fun item =>
          encodeURIComponent kv.1 ++ "=" ++ encodeURIComponent ((jsonStringify item).getD ("undefined")))
    | v => [encodeURIComponent kv.1 ++ "=" ++ encodeURIComponent ((jsonStringify v).getD ("undefined"))])
where
  jsArrayToList : JSArray → List JSValue
    | .nil => []
    | .cons h t => h :: jsArrayToList t

/-- Url suffixing written from the words of claim C6: the pairs joined
with ampersands, after a leading separator that is a question mark if
the url contains none yet and an ampersand otherwise; a string query is
appended verbatim after that separator. -/
def claimAddQueryString (url : String) (query : QueryArg) : String :=
  match query with
  | .absent => url
  | .strQ s => url ++ (if url.toList.contains '?' = false then "?" else "&") ++ s
  | .objQ fields =>
      url ++ (if url.toList.contains '?' = false then "?" else "&")
          ++ String.intercalate ("&") (claimQueryPairs fields)

/-- getPlaceholderValue (src/lib/BeanBag.js lines 127-143): a defined
per-call option is returned as-is; otherwise client state is consulted,
where a callable is invoked with (requestOptions, placeholderName), a
missing name yields the placeholder literally (braces included), and any
other value is coerced to string. -/
def getPlaceholderValue (clientProps reqOpts : List (String × JSValue)) (placeholderName : String) : JSValue :=
  let optVal := (lookupJS reqOpts placeholderName).getD .undef
  if optVal.isUndef then
    match (lookupJS clientProps placeholderName).getD .undef with
    | .undef => .str ("\x7b" ++ placeholderName ++ "\x7d")
    | .fn _ impl => (impl (eraseToPrims reqOpts) placeholderName).toValue
    | v => .str (jsToString v)
  else optVal

/-- Replacement text produced for a simple-name placeholder: the String
coercion that String.prototype.replace applies to the value returned by
the regex callback. -/
def substituteSimplePlaceholder (clientProps reqOpts : List (String × JSValue)) (name : String) : String :=
  jsToString (getPlaceholderValue clientProps reqOpts name)

/-- Word characters of the regex class backslash-w. -/
def isWordChar (c : Char) : Bool :=
  let n := c.toNat
  (65 ≤ n && n ≤ 90) || (97 ≤ n && n ≤ 122) || (48 ≤ n && n ≤ 57) || c = '_'

/-- expandUrl (src/lib/BeanBag.js lines 145-161), modelled for
simple-name placeholders: the regex callback substitutes the coerced
getPlaceholderValue for contents matching word characters.  Expression
placeholders are compiled with new Function in the source (runtime code
generation) and are outside the model: their text is left unchanged
here.  The fuel is the initial character count. -/
def expandUrlChars (clientProps reqOpts : List (String × JSValue)) : Nat → List Char → List Char
  | 0, cs => cs
  | _, [] => []
  | fuel + 1, c :: cs =>
    if c = '\x7b' then
      let content := cs.takeWhile (fun d => d ≠ '\x7d')
      match cs.drop content.length with
      | '\x7d' :: rest2 =>
        if content ≠ [] ∧ content.all isWordChar then
          (substituteSimplePlaceholder clientProps reqOpts (String.mk content)).toList
            ++ expandUrlChars clientProps reqOpts fuel rest2
        else '\x7b' :: (content ++ '\x7d' :: expandUrlChars clientProps reqOpts fuel rest2)
      | _ => c :: cs
    else c :: expandUrlChars clientProps reqOpts fuel cs

/-- expandUrl on strings. -/
def expandUrl (clientProps reqOpts : List (String × JSValue)) (url : String) : String :=
  String.mk (expandUrlChars clientProps reqOpts url.toList.length url.toList)

/-- Lookup in one placeholder scope where a name counts as present only
when its value is not undefined (absence is distinguished by the value
being truly undefined, not by falsiness). -/
def lookupDefined (scope : List (String × JSValue)) (name : String) : Option JSValue :=
  match lookupJS scope name with
  | some v => if v.isUndef then none else some v
  | none => none

/-- Resolution rule asserted by claim C5: look the name up in the
per-call request options first, then in per-client state; a callable
resolved from either scope is invoked with (requestOptions,
placeholderName) and its return value used; any other value is coerced
to string; an absent name leaves the placeholder literally with its
braces. -/
def claimPlaceholderResolve (clientProps reqOpts : List (String × JSValue)) (name : String) : String :=
  match (lookupDefined reqOpts name).orElse (fun _ => lookupDefined clientProps name) with
  | none => "\x7b" ++ name ++ "\x7d"
  | some (.fn _ impl) => jsToString ((impl (eraseToPrims reqOpts) name).toValue)
  | some v => jsToString v

/-- Amended resolution rule: a defined per-call value is used raw and
only coerced to string at substitution time, so a per-call callable
contributes its source text rather than its return value; client-state
callables are invoked with (requestOptions, placeholderName); any other
resolved value is coerced to string; an absent name leaves the
placeholder literally with its braces. -/
def amendedPlaceholderResolve (clientProps reqOpts : List (String × JSValue)) (name : String) : String :=
  match lookupDefined reqOpts name with
  | some v => jsToString v
  | none =>
    match lookupDefined clientProps name with
    | none => "\x7b" ++ name ++ "\x7d"
    | some (.fn _ impl) => jsToString ((impl (eraseToPrims reqOpts) name).toValue)
    | some v => jsToString v

end BeanBagModel
namespace BeanBagModel

/-- Round-robin url configuration of a client: a single base url or a
list of base urls. -/
inductive ClientUrl where
  | single (s : String)
  | multiple (urls : List String)
deriving DecidableEq

/-- Property names already present on a fresh instance before the
constructor copies the configuration: the methods of BeanBag.prototype,
the inherited EventEmitter.prototype methods, and the Object.prototype
members.  For such a key, typeof this[key] is not undefined. -/
def builtinPropertyNames : List String :=
  ["objToCouchJson", "getPlaceholderValue", "expandUrl", "getAgent", "request", "quit",
   "installDesignDocument", "init", "queryTemporaryView", "queryDesignDocument",
   "setMaxListeners", "getMaxListeners", "emit", "addListener", "on", "once",
   "removeListener", "removeAllListeners", "listeners", "listenerCount",
   "hasOwnProperty", "isPrototypeOf", "propertyIsEnumerable", "toLocaleString",
   "toString", "valueOf", "constructor"]

/-- resolveCertKeyOrCa (src/lib/BeanBag.js lines 56-65) reads
certificate files from disk when given string file names; file contents
are an external effect outside the model, so every value is kept as
given and stands for the loaded material. -/
def resolveCertKeyOrCa : JSValue → JSValue := fun v => v

/-- Instance properties assigned by the constructor loop
(src/lib/BeanBag.js lines 84-94): cert, key and ca are always resolved
and assigned; any other key is assigned only when nothing of that name
exists on the instance or its prototype chain, so a key colliding with a
built-in property or method is silently ignored.  Config keys are
assumed distinct, as a JavaScript object literal makes them. -/
def assignConfigProps : List (String × JSValue) → List (String × JSValue)
  | [] => []
  | (k, v) :: rest =>
    if k = "cert" ∨ k = "key" ∨ k = "ca" then (k, resolveCertKeyOrCa v) :: assignConfigProps rest
    else if builtinPropertyNames.contains k then assignConfigProps rest
    else (k, v) :: assignConfigProps rest

/-- One trailing slash is stripped, as url.replace with an end-anchored
single-slash pattern does. -/
def stripTrailingSlash (s : String) : String :=
  if s.toList.getLast? = some '/' then String.mk s.toList.dropLast else s

/-- Entries of a configured url array; each must be a string, since the
constructor calls replace on it. -/
def urlArrayStrings : JSArray → Except String (List String)
  | .nil => .ok []
  | .cons (.str s) rest => (urlArrayStrings rest).map (fun l => s :: l)
  | .cons _ _ => .error ("TypeError: url.replace is not a function")

/-- Normalisation of this.url (src/lib/BeanBag.js lines 96-105): an
array has every member stripped of its trailing slash, a string is
stripped, and anything else throws config.url is required. -/
def normalizeUrl (v : Option JSValue) : Except String ClientUrl :=
  match v with
  | some (.arr items) => (urlArrayStrings items).map (fun l => .multiple (l.map stripTrailingSlash))
  | some (.str s) => .ok (.single (stripTrailingSlash s))
  | _ => .error ("config.url is required")

/-- Value of this.numRetries or-else 0 (src/lib/BeanBag.js line 107): a
configured positive number is kept; a falsy, absent or negative value
behaves as 0 (a negative budget never passes the positivity test of the
retry loop). -/
def configNumRetries (v : Option JSValue) : Nat :=
  match v with
  | some (.num n) => n.toNat
  | _ => 0

/-- State of a constructed client. -/
structure BeanBag where
  url : ClientUrl
  numRetries : Nat
  props : List (String × JSValue)
  designDocument : Option JSValue
  designDocumentVersion : Option String

/-- The BeanBag constructor (src/lib/BeanBag.js lines 81-112): copy the
configuration onto the instance (ignoring keys that collide with
built-ins), normalise the url or throw config.url is required, default
the retry budget, and fingerprint the design document when present. -/
def BeanBag.ofConfig (config : List (String × JSValue)) : Except String BeanBag :=
  match normalizeUrl (lookupJS (assignConfigProps config) ("url")) with
  | .error e => .error e
  | .ok u =>
    .ok { url := u
          numRetries := configNumRetries (lookupJS (assignConfigProps config) ("numRetries"))
          props := assignConfigProps config
          designDocument := lookupJS (assignConfigProps config) ("designDocument")
          designDocumentVersion :=
            (lookupJS (assignConfigProps config) ("designDocument")).map
              (fun d => md5HexOfString (objToCouchJson d)) }

/-- Base-url expansion step of request (src/lib/BeanBag.js line 196):
expandUrl calls String.prototype.replace on this.url.  When the client
was configured with a list of urls, this.url is an Array, which has no
replace method, so the call throws a TypeError; no element is selected
and the list is never rotated. -/
def requestBaseUrl (client : BeanBag) (reqOpts : List (String × JSValue)) : Except String String :=
  match client.url with
  | .single s => .ok (expandUrl client.props reqOpts s)
  | .multiple _ => .error ("TypeError: url.replace is not a function")

/-- Transport-level (non-HTTP) error as delivered to the request error
handler: whether the socketerrors catalogue recognises it, its name and
its message. -/
structure TransportError where
  isSocketError : Bool
  name : String
  message : String
deriving DecidableEq

/-- Errors surfaced by the pipeline: catalogued socket errors and typed
HTTP errors keyed by status code. -/
inductive BBError where
  | socket (name message : String)
  | http (statusCode : Nat) (message : String)
deriving DecidableEq

/-- Classification applied by handleError (src/lib/BeanBag.js lines
245-255) to an error without a statusCode: an error recognised by the
socketerrors catalogue is kept as that socket error; anything else is
converted to a 500 InternalServerError with the same message. -/
def classifyTransportError (e : TransportError) : BBError :=
  if e.isSocketError then .socket e.name e.message else .http 500 e.message

/-- NotFound predicate of an httperrors instance. -/
def BBError.isNotFound : BBError → Bool
  | .http 404 _ => true
  | _ => false

/-- Conflict predicate of an httperrors instance. -/
def BBError.isConflict : BBError → Bool
  | .http 409 _ => true
  | _ => false

/-- Response as far as the retry logic and the view-query recovery
observe it. -/
structure ResponseData where
  statusCode : Nat
  etagHeader : Option String
deriving DecidableEq

/-- Outcome of one transport invocation. -/
inductive DispatchOutcome where
  | transportError (e : TransportError)
  | response (r : ResponseData)
deriving DecidableEq

/-- Final state of the dispatch loop. -/
inductive DispatchResult where
  | failed (e : BBError)
  | responded (r : ResponseData)
  | pending
deriving DecidableEq

/-- Trace of the dispatch loop: how often the transport was invoked,
the request descriptor used by each invocation, the retry budget left
after the last observed event, and the outcome. -/
structure DispatchTrace (α : Type) where
  invocations : Nat
  requestsSent : List α
  numRetriesLeft : Nat
  result : DispatchResult
deriving DecidableEq

/-- dispatchRequest retry behaviour (src/lib/BeanBag.js lines 283-307
and 325): every dispatch sends the same request descriptor; a streamed
body clamps the retry budget to zero before the outcome arrives; a
transport error with budget left decrements the budget and redispatches,
otherwise the error is classified and surfaced; receiving a response
freezes the budget to zero.  The oracle lists the outcome of each
successive transport invocation; an exhausted oracle leaves the request
pending. -/
def dispatchRequest {α : Type} (ro : α) (bodyIsStream : Bool) :
    Nat → List DispatchOutcome → DispatchTrace α
  | budget, [] => ⟨0, [], budget, .pending⟩
  | budget, outcome :: rest =>
    let budget := if bodyIsStream then 0 else budget
    match outcome with
    | .transportError e =>
      if 0 < budget then
        let t := dispatchRequest ro bodyIsStream (budget - 1) rest
        ⟨t.invocations + 1, ro :: t.requestsSent, t.numRetriesLeft, t.result⟩
      else ⟨1, [ro], budget, .failed (classifyTransportError e)⟩
    | .response r => ⟨1, [ro], 0, .responded r⟩

/-- Initial retry budget of a request (src/lib/BeanBag.js line 194):
zero when streaming rows, otherwise the per-call override when present,
else the client default. -/
def initialNumRetries (streamRows : Bool) (optionsNumRetries : Option Nat) (clientNumRetries : Nat) : Nat :=
  if streamRows then 0 else optionsNumRetries.getD clientNumRetries

/-- Whole-request retry pipeline: the initial budget computation
followed by the dispatch loop. -/
def runRequestDispatch {α : Type} (ro : α) (streamRows bodyIsStream : Bool)
    (optionsNumRetries : Option Nat) (clientNumRetries : Nat)
    (outcomes : List DispatchOutcome) : DispatchTrace α :=
  dispatchRequest ro bodyIsStream (initialNumRetries streamRows optionsNumRetries clientNumRetries) outcomes

end BeanBagModel
namespace BeanBagModel

/-- JSON whitespace. -/
def isJsonWs (c : Char) : Bool := c = ' ' || c = '\t' || c = '\n' || c = '\r'

/-- Value of one hex digit. -/
def hexDigitValue (c : Char) : Option Nat :=
  let n := c.toNat
  if 48 ≤ n && n ≤ 57 then some (n - 48)
  else if 97 ≤ n && n ≤ 102 then some (n - 87)
  else if 65 ≤ n && n ≤ 70 then some (n - 55)
  else none

mutual
/-- Recursive-descent JSON value parser over characters, modelling
JSON.parse.  The fuel is decremented on every recursive call and is
sized generously by the caller.  Numbers are modelled as integers;
fractional and exponent forms are outside the model. -/
def parseJsonValue : Nat → List Char → Option (JSValue × List Char)
  | 0, _ => none
  | fuel + 1, cs =>
    match cs.dropWhile isJsonWs with
    | 'n' :: 'u' :: 'l' :: 'l' :: rest => some (.null, rest)
    | 't' :: 'r' :: 'u' :: 'e' :: rest => some (.boolean true, rest)
    | 'f' :: 'a' :: 'l' :: 's' :: 'e' :: rest => some (.boolean false, rest)
    | '"' :: rest => (parseJsonStringBody fuel rest).map (fun p => (.str (String.mk p.1), p.2))
    | '[' :: rest =>
      (match rest.dropWhile isJsonWs with
       | ']' :: rest2 => some (.arr .nil, rest2)
       | rest2 => (parseJsonElems fuel rest2).map (fun p => (.arr p.1, p.2)))
    | '\x7b' :: rest =>
      (match rest.dropWhile isJsonWs with
       | '\x7d' :: rest2 => some (.obj .nil, rest2)
       | rest2 => (parseJsonMembers fuel rest2).map (fun p => (.obj p.1, p.2)))
    | '-' :: rest => (parseJsonNumber fuel rest).map (fun p => (.num (-(p.1 : Int)), p.2))
    | c :: rest =>
        if c.isDigit then (parseJsonNumber fuel (c :: rest)).map (fun p => (.num (p.1 : Int), p.2))
        else none
    | [] => none

/-- Characters of a JSON string body up to the closing quote,
de-escaped. -/
def parseJsonStringBody : Nat → List Char → Option (List Char × List Char)
  | 0, _ => none
  | fuel + 1, cs =>
    match cs with
    | '"' :: rest => some ([], rest)
    | '\\' :: e :: rest =>
      (match e with
       | '"' => (parseJsonStringBody fuel rest).map (fun p => ('"' :: p.1, p.2))
       | '\\' => (parseJsonStringBody fuel rest).map (fun p => ('\\' :: p.1, p.2))
       | '/' => (parseJsonStringBody fuel rest).map (fun p => ('/' :: p.1, p.2))
       | 'b' => (parseJsonStringBody fuel rest).map (fun p => ('\x08' :: p.1, p.2))
       | 'f' => (parseJsonStringBody fuel rest).map (fun p => ('\x0c' :: p.1, p.2))
       | 'n' => (parseJsonStringBody fuel rest).map (fun p => ('\n' :: p.1, p.2))
       | 'r' => (parseJsonStringBody fuel rest).map (fun p => ('\r' :: p.1, p.2))
       | 't' => (parseJsonStringBody fuel rest).map (fun p => ('\t' :: p.1, p.2))
       | 'u' =>
         (match rest with
          | h1 :: h2 :: h3 :: h4 :: rest2 =>
            match hexDigitValue h1, hexDigitValue h2, hexDigitValue h3, hexDigitValue h4 with
            | some v1, some v2, some v3, some v4 =>
              let n := ((v1 * 16 + v2) * 16 + v3) * 16 + v4
              if n.isValidChar then
                (parseJsonStringBody fuel rest2).map (fun p => (Char.ofNat n :: p.1, p.2))
              else none
            | _, _, _, _ => none
          | _ => none)
       | _ => none)
    | c :: rest =>
        if c.toNat < 32 then none
        else (parseJsonStringBody fuel rest).map (fun p => (c :: p.1, p.2))
    | [] => none

/-- Digits of a JSON integer; leading zeros, fractions and exponents are
rejected. -/
def parseJsonNumber : Nat → List Char → Option (Nat × List Char)
  | 0, _ => none
  | _ + 1, cs =>
    let digits := cs.takeWhile Char.isDigit
    let rest := cs.drop digits.length
    if digits = [] then none
    else if 2 ≤ digits.length ∧ digits.head? = some '0' then none
    else
      match rest with
      | '.' :: _ => none
      | 'e' :: _ => none
      | 'E' :: _ => none
      | _ => some (digits.foldl (fun acc c => acc * 10 + (c.toNat - 48)) 0, rest)

/-- Comma-separated member values of a JSON array, after the opening
bracket when the array is known to be non-empty. -/
def parseJsonElems : Nat → List Char → Option (JSArray × List Char)
  | 0, _ => none
  | fuel + 1, cs =>
    (parseJsonValue fuel cs).bind (fun p =>
      match p.2.dropWhile isJsonWs with
      | ',' :: rest2 => (parseJsonElems fuel rest2).map (fun q => (.cons p.1 q.1, q.2))
      | ']' :: rest2 => some (.cons p.1 .nil, rest2)
      | _ => none)

/-- Comma-separated key-value members of a JSON object, after the
opening brace when the object is known to be non-empty. -/
def parseJsonMembers : Nat → List Char → Option (JSFields × List Char)
  | 0, _ => none
  | fuel + 1, cs =>
    match cs.dropWhile isJsonWs with
    | '"' :: rest =>
      (parseJsonStringBody fuel rest).bind (fun kp =>
        match kp.2.dropWhile isJsonWs with
        | ':' :: rest2 =>
          (parseJsonValue fuel rest2).bind (fun vp =>
            match vp.2.dropWhile isJsonWs with
            | ',' :: rest3 =>
              (parseJsonMembers fuel rest3).map (fun q => (.cons (String.mk kp.1) vp.1 q.1, q.2))
            | '\x7d' :: rest3 => some (.cons (String.mk kp.1) vp.1 .nil, rest3)
            | _ => none)
        | _ => none)
    | _ => none
end

/-- JSON.parse on a string: the whole input must be consumed up to
trailing whitespace. -/
def jsonParse (s : String) : Option JSValue :=
  match parseJsonValue (2 * s.length + 2) s.toList with
  | some (v, rest) => if rest.dropWhile isJsonWs = [] then some v else none
  | none => none

end BeanBagModel

namespace BeanBagModel

/-- Whitespace class of the regexes in the streaming parser. -/
def isRegexWs (c : Char) : Bool :=
  c = ' ' || c = '\t' || c = '\n' || c = '\r' || c = '\x0c' || c = '\x0b'

/-- Events emitted on the streaming handle by the line handler.  A
metadata or row payload of none stands for the undefined produced when
parsing did not yield a value. -/
inductive StreamEvent where
  | metadata (v : Option JSValue)
  | row (v : Option JSValue)
  | errorEvent (e : BBError)
  | endEvent

/-- Match of the tail that must follow the captured prefix in the
opening-line regex: a quoted rows or results key, a colon, optional
whitespace, an opening bracket, and optionally an immediately-empty
close. -/
def rowsTailMatches (cs : List Char) : Bool :=
  let afterKey : Option (List Char) :=
    match cs with
    | '"' :: 'r' :: 'o' :: 'w' :: 's' :: '"' :: ':' :: rest => some rest
    | '"' :: 'r' :: 'e' :: 's' :: 'u' :: 'l' :: 't' :: 's' :: '"' :: ':' :: rest => some rest
    | _ => none
  match afterKey with
  | none => false
  | some rest =>
    match rest.dropWhile isRegexWs with
    | '[' :: rest2 => rest2 = [] || rest2 = [']', '\x7d']
    | _ => false

/-- The opening-line regex of the streaming parser (src/lib/BeanBag.js
line 353): a line starting with a brace whose remainder, after a greedy
capture, ends in a rows or results key with its opening bracket.  The
greedy capture is the longest prefix whose remainder matches. -/
def matchFirstLine (s : String) : Option String :=
  match s.toList with
  | '\x7b' :: body =>
    (List.range (body.length + 1)).reverse.findSome? (fun k =>
      if rowsTailMatches (body.drop k) then some (String.mk (body.take k)) else none)
  | _ => none

/-- The trailing-metadata regex (src/lib/BeanBag.js line 359): a line
starting with a double quote and ending with a closing brace; the
capture is everything except that final brace. -/
def matchLastLine (s : String) : Option String :=
  match s.toList with
  | '"' :: _ =>
      if s.toList.getLast? = some '\x7d' then some (String.mk s.toList.dropLast) else none
  | _ => none

/-- Trailing-comma stripping applied to a row line (src/lib/BeanBag.js
line 365): one trailing comma, optionally followed by one carriage
return, is removed. -/
def stripRowLineComma (s : String) : String :=
  match s.toList.reverse with
  | '\r' :: ',' :: rest => String.mk rest.reverse
  | ',' :: rest => String.mk rest.reverse
  | _ => s

/-- Trailing comma-and-whitespace stripping applied to the captured
metadata prefix (src/lib/BeanBag.js line 356). -/
def stripMetaComma (s : String) : String :=
  match s.toList.reverse.dropWhile isRegexWs with
  | ',' :: rest => String.mk rest.reverse
  | _ => s

/-- Handling of one line event in streaming mode (src/lib/BeanBag.js
lines 346-374).  Returns the updated terminal flag and the events fired
on the handle.  A line already past the terminal flag fires nothing.  A
line that fails to JSON-parse fires the InternalServerError and sets the
terminal flag, and then still fires a row event carrying undefined,
because the catch block does not return before the row emit. -/
def processLine (done : Bool) (s : String) : Bool × List StreamEvent :=
  if done then (done, [])
  else
    match matchFirstLine s with
    | some capture =>
      if capture ≠ "" then
        (done, [.metadata (jsonParse ("\x7b" ++ stripMetaComma capture ++ "\x7d"))])
      else (done, [])
    | none =>
      match matchLastLine s with
      | some capture => (done, [.metadata (jsonParse ("\x7b" ++ capture ++ "\x7d"))])
      | none =>
        if s = "]\x7d" ∨ s = "" ∨ s = "]," then (done, [])
        else
          let s2 := stripRowLineComma s
          match jsonParse s2 with
          | some v => (done, [.row (some v)])
          | none =>
            (true, [.errorEvent (.http 500 ("Couldn\x27t parse line: " ++ s2)), .row none])

/-- Folding of processLine over the successive response lines. -/
def processLines (done : Bool) : List String → Bool × List StreamEvent
  | [] => (done, [])
  | l :: rest =>
    let step := processLine done l
    let next := processLines step.1 rest
    (next.1, step.2 ++ next.2)

/-- End-of-stream handling (src/lib/BeanBag.js lines 266-275 and 375):
when the line stream ends without a prior terminal event, handleSuccess
fires the end event exactly once; after a terminal event nothing more
fires. -/
def processStream (ls : List String) : List StreamEvent :=
  let run := processLines false ls
  if run.1 then run.2 else run.2 ++ [.endEvent]

end BeanBagModel
namespace BeanBagModel

/-- Scheme separator split: the characters before the first ://
occurrence and those after it. -/
def splitSchemeSep : List Char → Option (List Char × List Char)
  | [] => none
  | c :: rest =>
    if c = ':' ∧ rest.take 2 = ['/', '/'] then some ([], rest.drop 2)
    else (splitSchemeSep rest).map (fun p => (c :: p.1, p.2))

/-- Parsed url, as far as request consumes it. -/
structure UrlObj where
  protocol : Option String
  hostname : Option String
  port : Option String
  path : String
deriving DecidableEq

/-- Characters that terminate the authority component. -/
def isAuthorityEnd (c : Char) : Bool := c = '/' || c = '?' || c = '#'

/-- Host-port part after dropping any userinfo: everything after the
last at-sign. -/
def afterLastAt (cs : List Char) : List Char :=
  match cs.reverse.span (fun c => c ≠ '@') with
  | (_, []) => cs
  | (afterRev, _) => afterRev.reverse

/-- Split at the last colon into hostname and optional port text. -/
def splitLastColon (cs : List Char) : List Char × Option (List Char) :=
  match cs.reverse.span (fun c => c ≠ ':') with
  | (_, []) => (cs, none)
  | (portRev, _ :: hostRev) => (hostRev.reverse, some portRev.reverse)

/-- Model of url.parse for scheme://host urls, to the extent request
consumes the result: hostname, optional port text, and path (pathname
plus query string). -/
def urlParse (url : String) : UrlObj :=
  match splitSchemeSep url.toList with
  | none => { protocol := none, hostname := none, port := none, path := url }
  | some (scheme, rest) =>
    let authority := rest.takeWhile (fun c => !isAuthorityEnd c)
    let tail := rest.drop authority.length
    let hp := splitLastColon (afterLastAt authority)
    { protocol := some (String.mk (scheme.map Char.toLower) ++ ":")
      hostname := some (String.mk hp.1)
      port := hp.2.map String.mk
      path := if tail = [] then "/" else String.mk (tail.takeWhile (fun c => c ≠ '#')) }

/-- Decimal parseInt on a digit string. -/
def parseDecimal (s : String) : Nat :=
  s.toList.foldl (fun acc c => acc * 10 + (c.toNat - 48)) 0

/-- Low-level request descriptor handed to the transport
(src/lib/BeanBag.js lines 220-227). -/
structure LowLevelRequest where
  host : Option String
  port : Nat
  method : String
  path : String
deriving DecidableEq

/-- Construction of the low-level request descriptor from the final url
(src/lib/BeanBag.js lines 218-227): the port is 80 whenever the url
carries no explicit port, regardless of the scheme; an explicit port is
parsed as a decimal integer. -/
def buildRequestOptions (url : String) (method : String) : LowLevelRequest :=
  let u := urlParse url
  { host := u.hostname
    port := match u.port with
            | none => 80
            | some p => parseDecimal p
    method := method
    path := u.path }

/-- Outcome of one view request as delivered to the request callback. -/
inductive ViewOutcome where
  | failure (e : BBError) (response : Option ResponseData)
  | success (r : ResponseData)
deriving DecidableEq

/-- Result delivered to the caller of queryDesignDocument. -/
inductive CallbackOutcome where
  | failed (e : BBError) (response : Option ResponseData)
  | succeeded (r : ResponseData)
deriving DecidableEq

/-- Trace of one queryDesignDocument invocation: how many view GETs were
issued, how many installDesignDocument invocations happened, and what
reached the caller. -/
structure QueryTrace where
  viewGets : Nat
  installs : Nat
  outcome : CallbackOutcome
deriving DecidableEq

/-- installDesignDocument callback behaviour (src/lib/BeanBag.js lines
414-442): a successful PUT reports success to the continuation
immediately (stale-fingerprint cleanup then proceeds asynchronously and
best-effort); a 409 Conflict also reports success, because a concurrent
installer won; any other error is passed through. -/
def installDesignDocument (putOutcome : Option BBError) : Option BBError :=
  match putOutcome with
  | none => none
  | some e => if e.isConflict then none else some e

/-- Removal of the etag cache validator from a response envelope. -/
def stripEtag (r : ResponseData) : ResponseData := { r with etagHeader := none }

/-- queryDesignDocument recovery logic (src/lib/BeanBag.js lines
537-551) for a non-temporary query.  The oracle supplies the first view
GET outcome, the design-document PUT outcome, and the second view GET
outcome.  A NotFound from the first GET triggers exactly one install;
when the install reports success the view GET is retried once and its
outcome passed to the caller as-is (even a NotFound triggers no second
install, and no etag stripping happens on this path); when the install
fails, its error is passed to the caller and no retry is issued.  Any
other first outcome is passed to the caller, with the etag cache header
dropped when view ETags are not trusted. -/
def queryDesignDocument (trustViewETags : Bool) (g1 : ViewOutcome)
    (putOutcome : Option BBError) (g2 : ViewOutcome) : QueryTrace :=
  match g1 with
  | .failure e r =>
    if e.isNotFound then
      match installDesignDocument putOutcome with
      | some ie => { viewGets := 1, installs := 1, outcome := .failed ie none }
      | none =>
        { viewGets := 2, installs := 1,
          outcome :=
            match g2 with
            | .failure e2 r2 => .failed e2 r2
            | .success r2 => .succeeded r2 }
    else
      { viewGets := 1, installs := 0,
        outcome := .failed e (if trustViewETags then r else r.map stripEtag) }
  | .success r =>
    { viewGets := 1, installs := 0,
      outcome := .succeeded (if trustViewETags then r else stripEtag r) }

/-- Design document of the repository test suite, with the given source
text as its single map function. -/
def docWithSource (s : String) : JSValue :=
  .obj (.cons ("views") (.obj (.cons ("foo") (.obj (.cons ("map")
    (.fn s (fun _ _ => .undef)) .nil)) .nil)) .nil)

/-- Fingerprint computed at construction (src/lib/BeanBag.js line 110):
the lowercase hex MD5 of the canonical couch JSON. -/
def designDocumentVersion (doc : JSValue) : String :=
  md5HexOfString (objToCouchJson doc)

/-- The sixteen digest bytes read as a single natural number, to make
the finiteness of the digest space usable. -/
def md5DigestNat (msg : List Nat) : Nat :=
  (md5Digest msg).foldl (fun acc b => acc * 256 + b) 0

/-- Inverse of the JSON character escaping, as a decoder over escaped
character sequences; it witnesses that escaping is injective. -/
def unescapeJsonChars : List Char → Option (List Char)
  | [] => some []
  | c :: cs =>
    if c = '\\' then
      match cs with
      | e :: rest =>
        if e = 'u' then
          match rest with
          | d1 :: d2 :: d3 :: d4 :: rest2 =>
            if d1 = '0' ∧ d2 = '0' then
              match hexDigitValue d3, hexDigitValue d4 with
              | some v1, some v2 =>
                  (unescapeJsonChars rest2).map (fun l => Char.ofNat (16 * v1 + v2) :: l)
              | _, _ => none
            else none
          | _ => none
        else if e = '"' then (unescapeJsonChars rest).map (fun l => '"' :: l)
        else if e = '\\' then (unescapeJsonChars rest).map (fun l => '\\' :: l)
        else if e = 'b' then (unescapeJsonChars rest).map (fun l => '\x08' :: l)
        else if e = 't' then (unescapeJsonChars rest).map (fun l => '\t' :: l)
        else if e = 'n' then (unescapeJsonChars rest).map (fun l => '\n' :: l)
        else if e = 'f' then (unescapeJsonChars rest).map (fun l => '\x0c' :: l)
        else if e = 'r' then (unescapeJsonChars rest).map (fun l => '\r' :: l)
        else none
      | [] => none
    else (unescapeJsonChars cs).map (fun l => c :: l)

end BeanBagModel
namespace BeanBagModel

/-! Known-answer validation of the embedded hash and canonicalisation. -/

/-- MD5 known-answer tests validating the embedded digest function. -/
theorem md5KnownAnswers :
    md5HexOfString ("") = "d41d8cd98f00b204e9800998ecf8427e" ∧
    md5HexOfString ("abc") = "900150983cd24fb0d6963f7d28e17f72" := by
  constructor <;> decide

/-- Canonicalisation and fingerprint of the repository test design
document reproduce the fingerprint appearing in the repository tests. -/
theorem designDocumentVersionKnownAnswer :
    designDocumentVersion (docWithSource
      ("function () \x7b\n                                emit(\x27foo\x27);\n                            \x7d"))
    = "c5f85a319e5af7e66e88b89782890461" := by
  decide

/-! Query-string encoder (claim C6). -/

/-- queryPairsForArr agrees with the mapped form used in the claim-side
encoder. -/
theorem queryPairsForArr_eq_map (k : String) :
    ∀ items : JSArray,
      queryPairsForArr k items
        = (claimQueryPairs.jsArrayToList items).map (fun item =>
            encodeURIComponent k ++ "=" ++ encodeURIComponent ((jsonStringify item).getD ("undefined")))
  | .nil => rfl
  | .cons h t => by
      simp [queryPairsForArr, claimQueryPairs.jsArrayToList, queryPairsForArr_eq_map k t]

/-- The source encoder emits exactly the pairs described by the claim. -/
theorem queryParams_eq_claimQueryPairs (fields : List (String × JSValue)) :
    queryParams fields = claimQueryPairs fields := by
  induction fields with
  | nil => rfl
  | cons kv rest ih =>
    obtain ⟨k, v⟩ := kv
    cases v <;>
      simp [queryParams, claimQueryPairs, queryPairsForKey, queryPairsForArr_eq_map, ih]

end BeanBagModel
namespace BeanBagModel

/-- C6: for every query value passed to a request, a key-to-value
mapping is encoded in insertion order, entries with undefined values are
skipped, each scalar value yields percentEncode(key) =
percentEncode(JSON.stringify(value)), each array value yields one such
pair per item, the pairs are joined with ampersands, the leading
separator is a question mark when the url has none yet and an ampersand
otherwise, and a string query is appended verbatim after that separator;
the source encoder coincides with this description on all inputs, and on
the unicode test vector of the repository it produces the documented
url. -/
theorem claimC6QueryEncoding :
    (∀ (url : String) (query : QueryArg),
        addQueryStringToUrl url query = claimAddQueryString url query) ∧
    addQueryStringToUrl ("http://localhost:5984/bar/quux")
        (.objQ [("ascii", .str ("blabla")),
                ("nønascïî", .str ("nønascïî")),
                ("multiple", .arr (.cons (.str ("foo")) (.cons (.str ("nønascïî")) .nil))),
                ("iAmUndefined", .undef)])
      = "http://localhost:5984/bar/quux?ascii=%22blabla%22&n%C3%B8nasc%C3%AF%C3%AE=%22n%C3%B8nasc%C3%AF%C3%AE%22&multiple=%22foo%22&multiple=%22n%C3%B8nasc%C3%AF%C3%AE%22" := by
  constructor
  · intro url query
    cases query with
    | absent => rfl
    | strQ s =>
        simp only [addQueryStringToUrl, claimAddQueryString]
        cases h : url.toList.contains '?' <;> simp [h]
    | objQ fields =>
        simp only [addQueryStringToUrl, claimAddQueryString, queryParams_eq_claimQueryPairs]
        cases h : url.toList.contains '?' <;> simp [h]
  · decide

end BeanBagModel
namespace BeanBagModel

/-! Retry pipeline (claims C3 and C4). -/

/-- Whatever the outcomes, a dispatch loop started with budget zero
performs at most one transport invocation. -/
theorem dispatchRequest_zero_budget_invocations {α : Type} (ro : α) (bodyIsStream : Bool)
    (outcomes : List DispatchOutcome) :
    (dispatchRequest ro bodyIsStream 0 outcomes).invocations ≤ 1 := by
  cases outcomes with
  | nil => simp [dispatchRequest]
  | cons o rest =>
    cases o with
    | transportError e => cases bodyIsStream <;> simp [dispatchRequest]
    | response r => cases bodyIsStream <;> simp [dispatchRequest]

/-- A streamed body clamps every dispatch to budget zero, so at most one
transport invocation happens regardless of the configured budget. -/
theorem dispatchRequest_stream_invocations {α : Type} (ro : α) (budget : Nat)
    (outcomes : List DispatchOutcome) :
    (dispatchRequest ro true budget outcomes).invocations ≤ 1 := by
  cases outcomes with
  | nil => simp [dispatchRequest]
  | cons o rest =>
    cases o with
    | transportError e => simp [dispatchRequest]
    | response r => simp [dispatchRequest]

/-- C3: for every request whose body is a byte-stream or whose
streamRows flag is set, the effective retry budget is zero (streamRows
zeroes the initial budget, a streamed body clamps the budget at
dispatch), so the underlying transport is invoked at most once even when
a positive numRetries is configured. -/
theorem claimC3StreamingDisablesRetries {α : Type} (ro : α)
    (streamRows bodyIsStream : Bool) (optionsNumRetries : Option Nat) (clientNumRetries : Nat)
    (outcomes : List DispatchOutcome)
    (h : streamRows = true ∨ bodyIsStream = true) :
    (streamRows = true → initialNumRetries streamRows optionsNumRetries clientNumRetries = 0) ∧
    (runRequestDispatch ro streamRows bodyIsStream optionsNumRetries clientNumRetries outcomes).invocations ≤ 1 := by
  constructor
  · intro hs; simp [initialNumRetries, hs]
  · rcases h with hs | hb
    · subst hs
      simpa [runRequestDispatch, initialNumRetries] using
        dispatchRequest_zero_budget_invocations ro bodyIsStream outcomes
    · subst hb
      exact dispatchRequest_stream_invocations ro _ outcomes

/-- Witness for C3: a streaming request with five configured retries and
a failing transport still dispatches at most once. -/
theorem claimC3StreamingDisablesRetriesWitness :
    (initialNumRetries true (some 5) 0 = 0) ∧
    (runRequestDispatch ("http://localhost:5984/foo") true false (some 5) 0
        [.transportError ⟨true, "ETIMEDOUT", "timeout"⟩,
         .transportError ⟨true, "ETIMEDOUT", "timeout"⟩]).invocations ≤ 1 := by
  have h := claimC3StreamingDisablesRetries ("http://localhost:5984/foo") true false (some 5) 0
    [.transportError ⟨true, "ETIMEDOUT", "timeout"⟩,
     .transportError ⟨true, "ETIMEDOUT", "timeout"⟩] (Or.inl rfl)
  exact ⟨h.1 rfl, h.2⟩

/-- Exhausting the budget: with budget equal to the number of leading
transport errors, the next error is classified and surfaced after
exactly budget plus one invocations of the same descriptor, with the
budget used up. -/
theorem dispatchRequest_exhausts_budget {α : Type} (ro : α) :
    ∀ (es : List TransportError) (e : TransportError),
      dispatchRequest ro false es.length (es.map .transportError ++ [.transportError e])
        = ⟨es.length + 1, List.replicate (es.length + 1) ro, 0,
           .failed (classifyTransportError e)⟩
  | [], e => by simp [dispatchRequest]
  | e2 :: es, e => by
      simp [dispatchRequest, dispatchRequest_exhausts_budget ro es e, List.replicate_succ]

/-- Success within budget: leading transport errors not exceeding the
budget are each retried against the same descriptor, and the response
freezes the remaining budget to zero. -/
theorem dispatchRequest_recovers {α : Type} (ro : α) :
    ∀ (es : List TransportError) (budget : Nat) (r : ResponseData) (rest : List DispatchOutcome),
      es.length ≤ budget →
      dispatchRequest ro false budget (es.map .transportError ++ .response r :: rest)
        = ⟨es.length + 1, List.replicate (es.length + 1) ro, 0, .responded r⟩
  | [], budget, r, rest, _ => by simp [dispatchRequest]
  | e2 :: es, budget, r, rest, h => by
      have hb : 0 < budget := by
        have := h
        simp at this
        omega
      have ih := dispatchRequest_recovers ro es (budget - 1) r rest (by
        have := h
        simp at this
        omega)
      simp [dispatchRequest, hb, ih, List.replicate_succ]

/-- C4: for every request with effective retry budget R whose dispatches
fail with transport errors, each failure with budget left decrements the
budget and redispatches the same logical request (the same descriptor,
hence the same url); the (R+1)-th consecutive transport error is
classified through the socket-error catalogue and surfaced; and a
request that receives a response after at most R transport errors
succeeds with its retry budget frozen to zero. -/
theorem claimC4TransportRetries {α : Type} (ro : α) (R : Nat)
    (es : List TransportError) (e : TransportError) (r : ResponseData)
    (rest : List DispatchOutcome) :
    (es.length = R →
      dispatchRequest ro false R ((es ++ [e]).map .transportError)
        = ⟨R + 1, List.replicate (R + 1) ro, 0, .failed (classifyTransportError e)⟩) ∧
    (es.length ≤ R →
      dispatchRequest ro false R (es.map .transportError ++ .response r :: rest)
        = ⟨es.length + 1, List.replicate (es.length + 1) ro, 0, .responded r⟩) := by
  constructor
  · intro hR; subst hR
    have h := dispatchRequest_exhausts_budget ro es e
    simpa [List.map_append] using h
  · intro hR; exact dispatchRequest_recovers ro es R r rest hR

/-- Witness for C4, matching the repository retry tests: with two
retries, three timeouts surface the classified third timeout after three
invocations, while two timeouts followed by a response succeed after
three invocations with the budget frozen to zero. -/
theorem claimC4TransportRetriesWitness :
    (dispatchRequest ("http://localhost:5984/foo") false 2
        ((([⟨true, "ETIMEDOUT", "t1"⟩, ⟨true, "ETIMEDOUT", "t2"⟩] ++ [⟨true, "ETIMEDOUT", "t3"⟩] : List TransportError)).map .transportError)
      = ⟨3, List.replicate 3 ("http://localhost:5984/foo"), 0,
         .failed (classifyTransportError ⟨true, "ETIMEDOUT", "t3"⟩)⟩) ∧
    (dispatchRequest ("http://localhost:5984/foo") false 2
        (([⟨true, "ETIMEDOUT", "t1"⟩, ⟨true, "ETIMEDOUT", "t2"⟩] : List TransportError).map .transportError
          ++ .response ⟨200, none⟩ :: [])
      = ⟨3, List.replicate 3 ("http://localhost:5984/foo"), 0, .responded ⟨200, none⟩⟩) := by
  have h := claimC4TransportRetries ("http://localhost:5984/foo") 2
    [⟨true, "ETIMEDOUT", "t1"⟩, ⟨true, "ETIMEDOUT", "t2"⟩] ⟨true, "ETIMEDOUT", "t3"⟩
    ⟨200, none⟩ []
  exact ⟨h.1 rfl, h.2 (by decide)⟩

end BeanBagModel
namespace BeanBagModel

/-! Placeholder resolution (claim C5). -/

/-- Counterexample to C5 as stated: a callable supplied in the per-call
request options is not invoked; the substitution uses the raw value,
which coerces to the function source text, not to the return value that
the claimed resolution rule would produce. -/
theorem claimC5Counterexample :
    substituteSimplePlaceholder []
        [("domainName", .fn ("function () \x7b\x7d") (fun _ _ => .str ("example.com")))]
        ("domainName")
      = "function () \x7b\x7d" ∧
    claimPlaceholderResolve []
        [("domainName", .fn ("function () \x7b\x7d") (fun _ _ => .str ("example.com")))]
        ("domainName")
      = "example.com" ∧
    substituteSimplePlaceholder []
        [("domainName", .fn ("function () \x7b\x7d") (fun _ _ => .str ("example.com")))]
        ("domainName")
      ≠ claimPlaceholderResolve []
        [("domainName", .fn ("function () \x7b\x7d") (fun _ _ => .str ("example.com")))]
        ("domainName") := by
  refine ⟨rfl, rfl, ?_⟩
  decide

/-- C5 as amended: a simple-name placeholder is resolved from the
per-call request options first and then from per-client state; a defined
per-call value is used raw and coerced to string only at substitution
time (so a per-call callable contributes its source text), a
client-state callable is invoked with (requestOptions, placeholderName),
any other resolved value is coerced to string, a name absent (truly
undefined) in both scopes leaves the placeholder literally with its
braces, and falsy values including the literal 0 substitute as their
value. -/
theorem claimC5PlaceholderResolution :
    (∀ (clientProps reqOpts : List (String × JSValue)) (name : String),
        substituteSimplePlaceholder clientProps reqOpts name
          = amendedPlaceholderResolve clientProps reqOpts name) ∧
    substituteSimplePlaceholder [] [("partitionNumber", .num 0)] ("partitionNumber") = "0" ∧
    substituteSimplePlaceholder [] [] ("domainName") = "\x7bdomainName\x7d" := by
  refine ⟨?_, rfl, rfl⟩
  intro clientProps reqOpts name
  unfold substituteSimplePlaceholder amendedPlaceholderResolve getPlaceholderValue lookupDefined
  cases hr : lookupJS reqOpts name with
  | none =>
    simp [JSValue.isUndef]
    cases hc : lookupJS clientProps name with
    | none => simp [jsToString]
    | some v => cases v <;> simp [JSValue.isUndef, jsToString]
  | some v =>
    cases v with
    | undef =>
      simp [JSValue.isUndef]
      cases hc : lookupJS clientProps name with
      | none => simp [jsToString]
      | some w => cases w <;> simp [JSValue.isUndef, jsToString]
    | _ => simp [JSValue.isUndef]

end BeanBagModel
namespace BeanBagModel

/-! Constructor behaviour (claim C9). -/

/-- Keys assigned by the constructor loop never collide with a built-in
property name. -/
theorem assignConfigProps_no_builtin :
    ∀ (config : List (String × JSValue)) (k : String) (v : JSValue),
      (k, v) ∈ assignConfigProps config → builtinPropertyNames.contains k = false
  | [], k, v, h => by simp [assignConfigProps] at h
  | (k2, v2) :: rest, k, v, h => by
      simp only [assignConfigProps] at h
      split at h
      · rename_i hck
        rcases List.mem_cons.mp h with heq | hmem
        · have hk : k = k2 := congrArg Prod.fst heq
          subst hk
          rcases hck with hc | hc | hc <;> rw [hc] <;> decide
        · exact assignConfigProps_no_builtin rest k v hmem
      · split at h
        · exact assignConfigProps_no_builtin rest k v h
        · rename_i hb
          rcases List.mem_cons.mp h with heq | hmem
          · have hk : k = k2 := congrArg Prod.fst heq
            subst hk
            simpa using hb
          · exact assignConfigProps_no_builtin rest k v hmem

/-- A key absent from the configuration is absent from the assigned
properties. -/
theorem lookupJS_assignConfigProps_none :
    ∀ (config : List (String × JSValue)) (k : String),
      lookupJS config k = none → lookupJS (assignConfigProps config) k = none
  | [], _, _ => rfl
  | (k2, v2) :: rest, k, h => by
      simp only [lookupJS] at h
      by_cases hk : k2 = k
      · rw [if_pos hk] at h; cases h
      · rw [if_neg hk] at h
        have ih := lookupJS_assignConfigProps_none rest k h
        simp only [assignConfigProps]
        split
        · simp only [lookupJS, if_neg hk]; exact ih
        · split
          · exact ih
          · simp only [lookupJS, if_neg hk]; exact ih

/-- Counterexample to C9 as stated: a configuration whose key request
collides with a built-in method does not fail construction; the client
is built successfully and the colliding key is silently dropped. -/
theorem claimC9Counterexample :
    builtinPropertyNames.contains ("request") = true ∧
    BeanBag.ofConfig [("url", .str ("http://localhost")), ("request", .num 1)]
      = .ok { url := .single ("http://localhost"), numRetries := 0,
              props := [("url", .str ("http://localhost"))],
              designDocument := none, designDocumentVersion := none } := by
  exact ⟨rfl, by rfl⟩

/-- C9 as amended: a configuration key that collides with a built-in
client property or method is silently ignored (no instance binding is
created and construction does not fail because of it), while
construction does fail with the message config.url is required whenever
the url field is absent. -/
theorem claimC9ConstructorBehaviour :
    (∀ (config : List (String × JSValue)) (client : BeanBag),
        BeanBag.ofConfig config = .ok client →
        ∀ (k : String) (v : JSValue), (k, v) ∈ client.props →
          builtinPropertyNames.contains k = false) ∧
    (∀ config : List (String × JSValue),
        lookupJS config ("url") = none →
        BeanBag.ofConfig config = .error ("config.url is required")) := by
  constructor
  · intro config client hok k v hmem
    have hprops : client.props = assignConfigProps config := by
      unfold BeanBag.ofConfig at hok
      split at hok
      · cases hok
      · injection hok with h2
        rw [← h2]
    rw [hprops] at hmem
    exact assignConfigProps_no_builtin config k v hmem
  · intro config h
    have h2 := lookupJS_assignConfigProps_none config ("url") h
    unfold BeanBag.ofConfig
    rw [h2]
    rfl

/-- Witness for C9 as amended: a non-colliding user key yields no
built-in collision, and a configuration without url fails with the
documented message. -/
theorem claimC9ConstructorBehaviourWitness :
    builtinPropertyNames.contains ("domainName") = false ∧
    BeanBag.ofConfig [("numRetries", .num 3)] = .error ("config.url is required") := by
  refine ⟨?_, claimC9ConstructorBehaviour.2 [("numRetries", .num 3)] rfl⟩
  exact claimC9ConstructorBehaviour.1
    [("url", .str ("http://h")), ("domainName", .str ("x"))]
    { url := .single ("http://h"), numRetries := 0,
      props := [("url", .str ("http://h")), ("domainName", .str ("x"))],
      designDocument := none, designDocumentVersion := none }
    (by rfl) ("domainName") (.str ("x")) (List.Mem.tail _ (List.Mem.head _))

end BeanBagModel
namespace BeanBagModel

/-! Round-robin url selection (claim C2). -/

/-- C2 evaluated on the code: a client constructed with a list of base
urls is built with the whole list intact, but the first request does not
take the head and rotate: expandUrl invokes String.prototype.replace on
the Array, which throws a TypeError, and the list is left untouched (the
source contains no rotation of this.url at all). -/
theorem claimC2NoRoundRobin :
    BeanBag.ofConfig
        [("url", .arr (.cons (.str ("http://one.example.com/"))
                       (.cons (.str ("http://two.example.com")) .nil)))]
      = .ok { url := .multiple ["http://one.example.com", "http://two.example.com"],
              numRetries := 0,
              props := [("url", .arr (.cons (.str ("http://one.example.com/"))
                                      (.cons (.str ("http://two.example.com")) .nil)))],
              designDocument := none, designDocumentVersion := none } ∧
    requestBaseUrl
        { url := .multiple ["http://one.example.com", "http://two.example.com"],
          numRetries := 0,
          props := [("url", .arr (.cons (.str ("http://one.example.com/"))
                                  (.cons (.str ("http://two.example.com")) .nil)))],
          designDocument := none, designDocumentVersion := none } []
      = .error ("TypeError: url.replace is not a function") := by
  exact ⟨by rfl, rfl⟩

/-! Streaming row parser (claim C8). -/

/-- C8 evaluated on the code: a streaming line that fails to JSON-parse
after comma stripping fires the InternalServerError carrying the line
text and sets the terminal flag, but the error is not the last event:
the catch block does not return, so a row event carrying undefined fires
immediately afterwards.  Later lines and the end of the stream are then
suppressed. -/
theorem claimC8RowAfterStreamError :
    processLine false ("CQEWCQWEC")
      = (true, [.errorEvent (.http 500 ("Couldn\x27t parse line: CQEWCQWEC")), .row none]) ∧
    processStream
        ["\x7b\x22total_rows\x22:2,\x22offset\x22:0,\x22rows\x22:[",
         "CQEWCQWEC,",
         "]\x7d"]
      = [.metadata (some (.obj (.cons ("total_rows") (.num 2) (.cons ("offset") (.num 0) .nil)))),
         .errorEvent (.http 500 ("Couldn\x27t parse line: CQEWCQWEC")),
         .row none] := by
  exact ⟨rfl, rfl⟩

/-! Design-document recovery (claim C1). -/

/-- Counterexample to C1 as stated: when the first view GET reports
NotFound and the design-document install itself fails (here with a 500),
the view GET is not retried: the trace shows a single view GET, one
install, and the install error surfaced, where the claim required a
retry of the view GET in every NotFound case. -/
theorem claimC1Counterexample :
    queryDesignDocument true (.failure (.http 404 ("Not Found")) none)
        (some (.http 500 ("boom"))) (.success ⟨200, none⟩)
      = { viewGets := 1, installs := 1, outcome := .failed (.http 500 ("boom")) none } ∧
    (queryDesignDocument true (.failure (.http 404 ("Not Found")) none)
        (some (.http 500 ("boom"))) (.success ⟨200, none⟩)).viewGets ≠ 2 := by
  exact ⟨rfl, by decide⟩

/-- C1 as amended: a non-temporary queryDesignDocument whose view GET
fails with NotFound invokes installDesignDocument exactly once; when the
install reports success (including the 409 treated as success) the view
GET is retried exactly once and the outcome of the retry, error or not,
is passed to the caller as-is with no second install; when the install
fails, its error is passed to the caller and the view GET is not
retried. -/
theorem claimC1DesignDocumentRecovery
    (trust : Bool) (e : BBError) (r1 : Option ResponseData)
    (putOutcome : Option BBError) (g2 : ViewOutcome)
    (h : e.isNotFound = true) :
    (queryDesignDocument trust (.failure e r1) putOutcome g2).installs = 1 ∧
    (installDesignDocument putOutcome = none →
      queryDesignDocument trust (.failure e r1) putOutcome g2
        = { viewGets := 2, installs := 1,
            outcome := match g2 with
                       | .failure e2 r2 => .failed e2 r2
                       | .success r2 => .succeeded r2 }) ∧
    (∀ ie, installDesignDocument putOutcome = some ie →
      queryDesignDocument trust (.failure e r1) putOutcome g2
        = { viewGets := 1, installs := 1, outcome := .failed ie none }) := by
  refine ⟨?_, ?_, ?_⟩
  · simp only [queryDesignDocument, h, if_true]
    cases hi : installDesignDocument putOutcome <;> simp
  · intro hi
    simp only [queryDesignDocument, h, if_true, hi]
  · intro ie hi
    simp only [queryDesignDocument, h, if_true, hi]

/-- Witness for C1 as amended: a NotFound view GET with a successful
install retries once and passes the retried NotFound through unchanged
(no second install), and the same GET with a failed install surfaces the
install error without a retry. -/
theorem claimC1DesignDocumentRecoveryWitness :
    (queryDesignDocument true (.failure (.http 404 ("missing")) none) none
        (.failure (.http 404 ("still missing")) none)
      = { viewGets := 2, installs := 1,
          outcome := .failed (.http 404 ("still missing")) none }) ∧
    (queryDesignDocument true (.failure (.http 404 ("missing")) none)
        (some (.http 500 ("boom"))) (.success ⟨200, none⟩)
      = { viewGets := 1, installs := 1, outcome := .failed (.http 500 ("boom")) none }) := by
  constructor
  · exact (claimC1DesignDocumentRecovery true (.http 404 ("missing")) none none
      (.failure (.http 404 ("still missing")) none) rfl).2.1 rfl
  · exact (claimC1DesignDocumentRecovery true (.http 404 ("missing")) none
      (some (.http 500 ("boom"))) (.success ⟨200, none⟩) rfl).2.2 (.http 500 ("boom")) rfl

end BeanBagModel
namespace BeanBagModel

/-! Default port handling (claim C10). -/

/-- The scheme separator split finds the separator right after a scheme
free of colons. -/
theorem splitSchemeSep_append :
    ∀ (scheme rest : List Char), (∀ c ∈ scheme, c ≠ ':') →
      splitSchemeSep (scheme ++ ':' :: '/' :: '/' :: rest) = some (scheme, rest)
  | [], rest, _ => by simp [splitSchemeSep]
  | c :: cs, rest, h => by
      have hc : c ≠ ':' := h c (List.mem_cons_self c cs)
      have ih := splitSchemeSep_append cs rest (fun d hd => h d (List.mem_cons_of_mem c hd))
      rw [List.cons_append, splitSchemeSep, if_neg (fun hand => hc hand.1), ih]
      rfl

/-- C10: for every request whose expanded base url has an authority
without an explicit port, the low-level request descriptor carries port
80 even when the scheme is https; only an explicit port written in the
url is parsed and used instead (shown on the https test vector with port
5984). -/
theorem claimC10DefaultPort80 :
    (∀ (scheme host path : List Char) (method : String),
        (∀ c ∈ scheme, c ≠ ':') →
        (∀ c ∈ host, c ≠ ':' ∧ c ≠ '/' ∧ c ≠ '?' ∧ c ≠ '#' ∧ c ≠ '@') →
        (path = [] ∨ ∃ p2, path = '/' :: p2) →
        (buildRequestOptions (String.mk (scheme ++ ':' :: '/' :: '/' :: (host ++ path))) method).port = 80) ∧
    (buildRequestOptions ("https://example.com/db") ("GET")).port = 80 ∧
    (buildRequestOptions ("https://example.com:5984/db") ("GET")).port = 5984 := by
  refine ⟨?_, by rfl, by rfl⟩
  intro scheme host path method hs hh hp
  have htl : (String.mk (scheme ++ ':' :: '/' :: '/' :: (host ++ path))).toList
      = scheme ++ ':' :: '/' :: '/' :: (host ++ path) := rfl
  have hsplit := splitSchemeSep_append scheme (host ++ path) hs
  have hpos : ∀ c ∈ host, (!isAuthorityEnd c) = true := by
    intro c hc
    obtain ⟨_, h1, h2, h3, _⟩ := hh c hc
    simp [isAuthorityEnd, h1, h2, h3]
  have htake : (host ++ path).takeWhile (fun c => !isAuthorityEnd c) = host := by
    rw [List.takeWhile_append_of_pos hpos]
    rcases hp with rfl | ⟨p2, rfl⟩
    · simp
    · rw [List.takeWhile_cons_of_neg]
      · simp
      · simp [isAuthorityEnd]
  have hat : afterLastAt host = host := by
    unfold afterLastAt
    rw [List.span_eq_take_drop]
    have : host.reverse.dropWhile (fun c => c ≠ '@') = [] := by
      rw [List.dropWhile_eq_nil_iff]
      intro c hc
      exact (by simpa using (hh c (by simpa using hc)).2.2.2.2)
    rw [this]
  have hcolon : splitLastColon host = (host, none) := by
    unfold splitLastColon
    rw [List.span_eq_take_drop]
    have : host.reverse.dropWhile (fun c => c ≠ ':') = [] := by
      rw [List.dropWhile_eq_nil_iff]
      intro c hc
      exact (by simpa using (hh c (by simpa using hc)).1)
    rw [this]
  unfold buildRequestOptions urlParse
  rw [htl, hsplit]
  simp only [htake, hat, hcolon]
  rfl

/-- Witness for C10: the theorem applied to the https scheme with a
portless host yields port 80. -/
theorem claimC10DefaultPort80Witness :
    (buildRequestOptions (String.mk (("https").toList ++ ':' :: '/' :: '/'
        :: (("example.com").toList ++ ('/' :: ("db").toList)))) ("GET")).port = 80 := by
  exact claimC10DefaultPort80.1 (("https").toList) (("example.com").toList)
    ('/' :: ("db").toList) ("GET") (by decide) (by decide) (Or.inr ⟨("db").toList, rfl⟩)

end BeanBagModel
namespace BeanBagModel

/-! Design-document fingerprint (claim C7). -/

/-- Appending strings concatenates their character data. -/
theorem string_data_append (a b : String) : (a ++ b).data = a.data ++ b.data := rfl

/-- Intercalation of a singleton list is its element. -/
theorem intercalate_go_nil (acc s : String) : String.intercalate.go acc s [] = acc := rfl

/-- Strings with equal character lists are equal. -/
theorem string_toList_inj {s t : String} (h : s.toList = t.toList) : s = t := by
  cases s; cases t
  simp [String.toList] at h
  simp [h]

/-- The lowercase hex digit function is inverted by the hex digit
reader. -/
theorem hexDigitValue_hexDigitLower : ∀ n : Nat, n < 16 → hexDigitValue (hexDigitLower n) = some n := by
  decide

/-- The JSON escape decoder inverts the escaper. -/
theorem unescape_escape : ∀ cs : List Char, unescapeJsonChars (escapeJsonChars cs) = some cs
  | [] => rfl
  | c :: cs => by
      have ih := unescape_escape cs
      have hexp : escapeJsonChars (c :: cs) = escapeJsonChar c ++ escapeJsonChars cs := by
        simp [escapeJsonChars]
      rw [hexp]
      unfold escapeJsonChar
      by_cases h1 : c = '"'
      · subst h1; rw [unescapeJsonChars.eq_def]; simp [ih]
      · rw [if_neg h1]
        by_cases h2 : c = '\\'
        · subst h2; rw [unescapeJsonChars.eq_def]; simp [ih]
        · rw [if_neg h2]
          by_cases h3 : c = '\x08'
          · subst h3; rw [unescapeJsonChars.eq_def]; simp [ih]
          · rw [if_neg h3]
            by_cases h4 : c = '\t'
            · subst h4; rw [unescapeJsonChars.eq_def]; simp [ih]
            · rw [if_neg h4]
              by_cases h5 : c = '\n'
              · subst h5; rw [unescapeJsonChars.eq_def]; simp [ih]
              · rw [if_neg h5]
                by_cases h6 : c = '\x0c'
                · subst h6; rw [unescapeJsonChars.eq_def]; simp [ih]
                · rw [if_neg h6]
                  by_cases h7 : c = '\r'
                  · subst h7; rw [unescapeJsonChars.eq_def]; simp [ih]
                  · rw [if_neg h7]
                    by_cases h8 : c.toNat < 32
                    · rw [if_pos h8]
                      have hv1 : hexDigitValue (hexDigitLower (c.toNat / 16)) = some (c.toNat / 16) :=
                        hexDigitValue_hexDigitLower _ (by omega)
                      have hv2 : hexDigitValue (hexDigitLower (c.toNat % 16)) = some (c.toNat % 16) :=
                        hexDigitValue_hexDigitLower _ (by omega)
                      rw [unescapeJsonChars.eq_def]
                      simp [hv1, hv2, ih, Nat.div_add_mod, Char.ofNat_toNat]
                    · rw [if_neg h8]
                      simp only [List.cons_append, List.nil_append]
                      rw [unescapeJsonChars.eq_def]
                      simp only []
                      rw [if_neg h2, ih]
                      rfl

/-- JSON character escaping is injective. -/
theorem escapeJsonChars_injective {cs1 cs2 : List Char}
    (h : escapeJsonChars cs1 = escapeJsonChars cs2) : cs1 = cs2 := by
  have h1 := unescape_escape cs1
  rw [h, unescape_escape cs2] at h1
  exact (Option.some.inj h1).symm

/-- Canonical JSON of the test-shaped design document: a constant
prefix, the escaped map source, and a constant suffix. -/
theorem objToCouchJson_docWithSource (s : String) :
    (objToCouchJson (docWithSource s)).toList
      = ("\x7b\x22views\x22:\x7b\x22foo\x22:\x7b\x22map\x22:\x22").toList
        ++ escapeJsonChars s.toList ++ ("\x22\x7d\x7d\x7d").toList := by
  simp only [objToCouchJson, docWithSource, couchReplace, couchReplaceFields, jsonStringify,
    jsonStringifyFields, jsonQuote, String.intercalate, intercalate_go_nil, Option.getD]
  simp only [String.toList, string_data_append,
    (show escapeJsonChars (['v', 'i', 'e', 'w', 's']) = ['v', 'i', 'e', 'w', 's'] by decide),
    (show escapeJsonChars (['f', 'o', 'o']) = ['f', 'o', 'o'] by decide),
    (show escapeJsonChars (['m', 'a', 'p']) = ['m', 'a', 'p'] by decide)]
  simp [List.append_assoc]

/-- Changing the map source changes the canonical JSON of the design
document. -/
theorem objToCouchJson_docWithSource_injective (s1 s2 : String) (hne : s1 ≠ s2) :
    objToCouchJson (docWithSource s1) ≠ objToCouchJson (docWithSource s2) := by
  intro heq
  have h1 : (objToCouchJson (docWithSource s1)).toList
      = (objToCouchJson (docWithSource s2)).toList := by rw [heq]
  rw [objToCouchJson_docWithSource, objToCouchJson_docWithSource,
    List.append_assoc, List.append_assoc] at h1
  have h2 := List.append_cancel_left h1
  have h3 := List.append_cancel_right h2
  exact hne (string_toList_inj (escapeJsonChars_injective h3))

mutual
/-- couchReplace is idempotent on values. -/
theorem couchReplace_idem : ∀ v : JSValue, couchReplace (couchReplace v) = couchReplace v
  | .undef => rfl
  | .null => rfl
  | .boolean _ => rfl
  | .num _ => rfl
  | .str _ => rfl
  | .fn _ _ => rfl
  | .arr a => by simp [couchReplace, couchReplaceArr_idem a]
  | .obj f => by simp [couchReplace, couchReplaceFields_idem f]

/-- couchReplace is idempotent on array spines. -/
theorem couchReplaceArr_idem : ∀ a : JSArray, couchReplaceArr (couchReplaceArr a) = couchReplaceArr a
  | .nil => rfl
  | .cons h t => by simp [couchReplaceArr, couchReplace_idem h, couchReplaceArr_idem t]

/-- couchReplace is idempotent on field spines. -/
theorem couchReplaceFields_idem : ∀ f : JSFields, couchReplaceFields (couchReplaceFields f) = couchReplaceFields f
  | .nil => rfl
  | .cons k v t => by simp [couchReplaceFields, couchReplace_idem v, couchReplaceFields_idem t]
end

/-- Base-256 reading of a byte list started from an accumulator. -/
theorem foldl256_shift : ∀ (l : List Nat) (acc : Nat),
    l.foldl (fun a b => a * 256 + b) acc
      = acc * 256 ^ l.length + l.foldl (fun a b => a * 256 + b) 0
  | [], acc => by simp
  | b :: t, acc => by
      have h1 := foldl256_shift t (acc * 256 + b)
      have h2 := foldl256_shift t b
      simp only [List.foldl_cons, List.length_cons]
      rw [h1]
      rw [show (0 : Nat) * 256 + b = b by simp, h2]
      ring

/-- The base-256 reading of bounded bytes is bounded. -/
theorem foldl256_lt : ∀ l : List Nat, (∀ b ∈ l, b < 256) →
    l.foldl (fun a b => a * 256 + b) 0 < 256 ^ l.length
  | [], _ => by simp
  | b :: t, h => by
      have hb : b < 256 := h b (List.mem_cons_self b t)
      have ht := foldl256_lt t (fun x hx => h x (List.mem_cons_of_mem _ hx))
      simp only [List.foldl_cons, List.length_cons]
      rw [show (0 : Nat) * 256 + b = b by simp, foldl256_shift t b]
      calc b * 256 ^ t.length + t.foldl (fun a b => a * 256 + b) 0
          < b * 256 ^ t.length + 256 ^ t.length := by omega
        _ = (b + 1) * 256 ^ t.length := by ring
        _ ≤ 256 * 256 ^ t.length := Nat.mul_le_mul_right _ (by omega)
        _ = 256 ^ (t.length + 1) := by rw [pow_succ]; ring

/-- The base-256 reading is injective on equal-length bounded byte
lists. -/
theorem foldl256_inj : ∀ (l1 l2 : List Nat), l1.length = l2.length →
    (∀ b ∈ l1, b < 256) → (∀ b ∈ l2, b < 256) →
    l1.foldl (fun a b => a * 256 + b) 0 = l2.foldl (fun a b => a * 256 + b) 0 →
    l1 = l2
  | [], [], _, _, _, _ => rfl
  | [], _ :: _, hlen, _, _, _ => by simp at hlen
  | _ :: _, [], hlen, _, _, _ => by simp at hlen
  | b1 :: t1, b2 :: t2, hlen, h1, h2, heq => by
      have hlen2 : t1.length = t2.length := by simpa using hlen
      simp only [List.foldl_cons] at heq
      rw [show (0 : Nat) * 256 + b1 = b1 by simp, show (0 : Nat) * 256 + b2 = b2 by simp,
        foldl256_shift t1 b1, foldl256_shift t2 b2, hlen2] at heq
      have hv1 : t1.foldl (fun a b => a * 256 + b) 0 < 256 ^ t2.length := by
        rw [← hlen2]
        exact foldl256_lt t1 (fun x hx => h1 x (List.mem_cons_of_mem _ hx))
      have hv2 : t2.foldl (fun a b => a * 256 + b) 0 < 256 ^ t2.length :=
        foldl256_lt t2 (fun x hx => h2 x (List.mem_cons_of_mem _ hx))
      have hK : 0 < 256 ^ t2.length := Nat.pos_pow_of_pos _ (by omega)
      have hb : b1 = b2 := by
        have e1 : (256 ^ t2.length * b1 + t1.foldl (fun a b => a * 256 + b) 0) / 256 ^ t2.length
            = b1 := by
          rw [Nat.mul_add_div hK, Nat.div_eq_of_lt hv1]
          omega
        have e2 : (256 ^ t2.length * b2 + t2.foldl (fun a b => a * 256 + b) 0) / 256 ^ t2.length
            = b2 := by
          rw [Nat.mul_add_div hK, Nat.div_eq_of_lt hv2]
          omega
        rw [Nat.mul_comm (256 ^ t2.length) b1] at e1
        rw [Nat.mul_comm (256 ^ t2.length) b2] at e2
        rw [← e1, ← e2, heq]
      subst hb
      have hv : t1.foldl (fun a b => a * 256 + b) 0 = t2.foldl (fun a b => a * 256 + b) 0 := by
        omega
      have ht := foldl256_inj t1 t2 hlen2
        (fun x hx => h1 x (List.mem_cons_of_mem _ hx))
        (fun x hx => h2 x (List.mem_cons_of_mem _ hx)) hv
      rw [ht]

/-- The MD5 digest always holds sixteen bytes. -/
theorem md5Digest_length (msg : List Nat) : (md5Digest msg).length = 16 := by
  simp [md5Digest, wordBytes]

/-- Every MD5 digest byte is below 256. -/
theorem md5Digest_bytes_lt (msg : List Nat) : ∀ b ∈ md5Digest msg, b < 256 := by
  intro b hb
  simp [md5Digest, wordBytes] at hb
  rcases hb with hb | hb | hb | hb | hb | hb | hb | hb | hb | hb | hb | hb | hb | hb | hb | hb <;>
    omega

end BeanBagModel
namespace BeanBagModel

/-- Counterexample to C7 as stated: the conjunct that changing any
callable source text changes the fingerprint cannot hold, because the
fingerprint space is finite (sixteen bytes) while the source texts are
not: by the pigeonhole principle some two distinct sources share a
fingerprint. -/
theorem claimC7Counterexample :
    ¬ (∀ s1 s2 : String, s1 ≠ s2 →
        designDocumentVersion (docWithSource s1) ≠ designDocumentVersion (docWithSource s2)) := by
  intro H
  have hbound : ∀ n : Nat,
      md5DigestNat (utf8Encode (objToCouchJson (docWithSource (String.mk (List.replicate n 'a')))))
        < 256 ^ 16 := by
    intro n
    have h1 := foldl256_lt
      (md5Digest (utf8Encode (objToCouchJson (docWithSource (String.mk (List.replicate n 'a'))))))
      (md5Digest_bytes_lt _)
    rw [md5Digest_length] at h1
    exact h1
  obtain ⟨n1, n2, hne, heq⟩ := Finite.exists_ne_map_eq_of_infinite
    (fun n : Nat =>
      (⟨md5DigestNat (utf8Encode (objToCouchJson (docWithSource (String.mk (List.replicate n 'a'))))),
        hbound n⟩ : Fin (256 ^ 16)))
  have hnat : md5DigestNat (utf8Encode (objToCouchJson (docWithSource (String.mk (List.replicate n1 'a')))))
      = md5DigestNat (utf8Encode (objToCouchJson (docWithSource (String.mk (List.replicate n2 'a'))))) :=
    congrArg Fin.val heq
  have hlists : md5Digest (utf8Encode (objToCouchJson (docWithSource (String.mk (List.replicate n1 'a')))))
      = md5Digest (utf8Encode (objToCouchJson (docWithSource (String.mk (List.replicate n2 'a'))))) := by
    apply foldl256_inj _ _ (by rw [md5Digest_length, md5Digest_length])
      (md5Digest_bytes_lt _) (md5Digest_bytes_lt _)
    simpa [md5DigestNat] using hnat
  have hhex : designDocumentVersion (docWithSource (String.mk (List.replicate n1 'a')))
      = designDocumentVersion (docWithSource (String.mk (List.replicate n2 'a'))) := by
    unfold designDocumentVersion md5HexOfString
    rw [hlists]
  have hs : String.mk (List.replicate n1 'a') ≠ String.mk (List.replicate n2 'a') := by
    intro hc
    apply hne
    have hlen := congrArg (fun s : String => s.toList.length) hc
    simpa using hlen
  exact H _ _ hs hhex

/-- C7 as amended: the fingerprint computed at construction is the
lowercase hex MD5 of the canonical JSON of the design document with
callables replaced by their source text; the fingerprint is stable for a
fixed document (re-canonicalising the document leaves it unchanged); and
changing any callable source text changes the canonical JSON encoding
(the digest itself, being finite, cannot be injective in the source
text). -/
theorem claimC7FingerprintProperties :
    (∀ (config : List (String × JSValue)) (client : BeanBag),
        BeanBag.ofConfig config = .ok client →
        client.designDocumentVersion
          = client.designDocument.map (fun d => md5HexOfString (objToCouchJson d))) ∧
    (∀ doc : JSValue, designDocumentVersion (couchReplace doc) = designDocumentVersion doc) ∧
    (∀ s1 s2 : String, s1 ≠ s2 →
        objToCouchJson (docWithSource s1) ≠ objToCouchJson (docWithSource s2)) := by
  refine ⟨?_, ?_, objToCouchJson_docWithSource_injective⟩
  · intro config client hok
    unfold BeanBag.ofConfig at hok
    split at hok
    · cases hok
    · injection hok with h2
      rw [← h2]
  · intro doc
    unfold designDocumentVersion objToCouchJson
    rw [couchReplace_idem doc]

/-- Witness for C7 as amended: a client built with the repository test
design document carries exactly the canonical fingerprint
c5f85a319e5af7e66e88b89782890461; stability holds on that document; and
the canonical JSONs of two concretely different sources differ. -/
theorem claimC7FingerprintPropertiesWitness :
    (({ url := .single ("http://localhost"), numRetries := 0,
        props := [("url", .str ("http://localhost")),
                  ("designDocument", docWithSource ("function () \x7b\x7d"))],
        designDocument := some (docWithSource ("function () \x7b\x7d")),
        designDocumentVersion := some ("1a5971514c414e52a15992c076a5e91b") } : BeanBag).designDocumentVersion
      = (some (docWithSource ("function () \x7b\x7d"))).map (fun d => md5HexOfString (objToCouchJson d))) ∧
    designDocumentVersion (couchReplace (docWithSource ("function () \x7b\x7d")))
      = designDocumentVersion (docWithSource ("function () \x7b\x7d")) ∧
    objToCouchJson (docWithSource ("a")) ≠ objToCouchJson (docWithSource ("b")) := by
  refine ⟨?_, claimC7FingerprintProperties.2.1 _,
    claimC7FingerprintProperties.2.2 ("a") ("b") (by decide)⟩
  exact claimC7FingerprintProperties.1
    [("url", .str ("http://localhost")), ("designDocument", docWithSource ("function () \x7b\x7d"))]
    _ (by rfl)

end BeanBagModel
